import Mathlib

/-!
Verification of the mintlayer-core specification against a shallow embedding of the
relevant source components: the accounting delta engine, the hierarchical transaction
verifier flush, the chainstate timelock and PoS checks, the mempool admission and
eviction logic, the wallet storage unlock check, and the block merkle-root helpers.

Each definition either embeds a function present under the repository sources, or is
explicitly marked as modelled from the specification when the implementing module is
absent from the source tree (only its tests or trait declarations are present).
-/

namespace Mintlayer

/-! ### Accounting delta engine (spec 4.4)

The DataDelta implementation (src/accounting/src/delta) is absent from the source
tree; only src/accounting/src/delta/tests.rs is present. The definitions below are
modelled from the specification. -/

/-- Modelled from the spec: the error kinds returned by per-cell delta operations of the
missing src/accounting/src/delta module. DeltaDataMismatch is returned by
combine_data_with_delta when the origin disagrees with the delta's before-component;
DeltaDataConflict by the merge of an incompatible chain. -/
inductive DeltaError where
  | deltaDataMismatch
  | deltaDataConflict
  deriving DecidableEq

/-- Modelled from the spec: DataDelta<T> is the pair (before, after), each in
{None, Some v}, representing a change to one keyed cell of an accounting map
(missing module src/accounting/src/delta). -/
structure DataDelta (V : Type) where
  before : Option V
  after : Option V
  deriving DecidableEq

/-- Modelled from the spec: combine_data_with_delta applies a delta to a single cell,
failing if the data does not equal the delta's before-component; an absent delta
leaves the cell unchanged (missing module src/accounting/src/delta). -/
def combineDataWithDelta [DecidableEq V] (data : Option V) (delta : Option (DataDelta V)) :
    Except DeltaError (Option V) :=
  match delta with
  | none => .ok data
  | some d => if data = d.before then .ok d.after else .error .deltaDataMismatch

/-- Modelled from the spec: merging (a, b) with (c, d) on the same key is valid iff
b = c; the result is (a, d), and when additionally a = d the net change is a no-op and
the key is erased, encoded here as a none result (missing module
src/accounting/src/delta). -/
def mergeDeltaData [DecidableEq V] (d1 d2 : DataDelta V) :
    Except DeltaError (Option (DataDelta V)) :=
  if d1.after = d2.before then
    .ok (if d1.before = d2.after then none else some ⟨d1.before, d2.after⟩)
  else .error .deltaDataConflict

/-- Modelled from the spec: the inverse (undo) of a delta swaps its components. -/
def invertDelta (d : DataDelta V) : DataDelta V := ⟨d.after, d.before⟩

/-- Applying two deltas to one cell in sequence. -/
def applyTwoDeltas [DecidableEq V] (data : Option V) (d1 d2 : DataDelta V) :
    Except DeltaError (Option V) :=
  (combineDataWithDelta data (some d1)).bind fun r => combineDataWithDelta r (some d2)

/-- Merging two deltas and applying the single merged delta (an erased key applies as
no delta at all). -/
def applyMergedDelta [DecidableEq V] (data : Option V) (d1 d2 : DataDelta V) :
    Except DeltaError (Option V) :=
  (mergeDeltaData d1 d2).bind fun m => combineDataWithDelta data m

/-! ### Block merkle roots (src/common/src/chain/block/mod.rs)

calculate_tx_merkle_root and calculate_witness_merkle_root return Ok(None) for an
empty transaction list, use the single transaction's id directly for a one-element
list, and otherwise build a merkle tree from the transaction ids. The id function and
the tree builder (merkletree_from_vec) are opaque parameters here; the claims only
exercise the branches taken before they run. -/

/-- calculate_tx_merkle_root from src/common/src/chain/block/mod.rs, with the
transaction id hash and merkletree_from_vec as opaque parameters. -/
def calculateTxMerkleRoot (getId : Tx → H) (mkTree : List H → Except MerkleError H)
    (transactions : List Tx) : Except MerkleError (Option H) :=
  match transactions with
  | [] => .ok none
  | [tx] => .ok (some (getId tx))
  | txs => (mkTree (txs.map getId)).map fun r => some r

/-- calculate_witness_merkle_root from src/common/src/chain/block/mod.rs; the source
body is currently identical to calculate_tx_merkle_root (it is computed from the
transaction ids, with a TODO to use real serialization). -/
def calculateWitnessMerkleRoot (getId : Tx → H) (mkTree : List H → Except MerkleError H)
    (transactions : List Tx) : Except MerkleError (Option H) :=
  match transactions with
  | [] => .ok none
  | [tx] => .ok (some (getId tx))
  | txs => (mkTree (txs.map getId)).map fun r => some r

/-! ### Wallet storage unlock check (src/wallet/storage/src/internal/store_tx.rs) -/

/-- The wallet storage error relevant to the unlock check. -/
inductive WalletError where
  | walletInvalidPassword
  deriving DecidableEq

/-- check_can_decrypt_all_root_keys from src/wallet/storage/src/internal/store_tx.rs:
iterate over all DBRootKeys values and try to decrypt each with the supplied key; the
first decryption failure maps to WalletInvalidPassword. The opaque
MaybeEncrypted::try_decrypt_then_take is the parameter decrypt (returning none on a
decryption error); a decoding error panics in the source and is outside the model. -/
def checkCanDecryptAllRootKeys (decrypt : K → E → Option V) (encryptionKey : K)
    (rootKeys : List (I × E)) : Except WalletError Unit :=
  match rootKeys with
  | [] => .ok ()
  | (_, v) :: rest =>
    match decrypt encryptionKey v with
    | some _ => checkCanDecryptAllRootKeys decrypt encryptionKey rest
    | none => .error .walletInvalidPassword

/-! ### Output timelocks (spec 4.2, 4.6)

The timelock check and the connect path of the transaction verifier are absent from
the source tree; only the chainstate tests
(src/chainstate/src/detail/tests/output_timelock.rs) are present. The definitions
below are modelled from the specification. -/

/-- The timelock variants exercised by the claims (from
common::chain::timelock::OutputTimeLock as used by the tests). -/
inductive OutputTimeLock where
  | untilHeight (h : Nat)
  | forBlockCount (c : Nat)
  deriving DecidableEq

/-- The state-update error relevant to the claims. -/
inductive StateUpdateError where
  | timeLockViolation
  deriving DecidableEq

/-- Modelled from the spec: a LockThenTransfer output may be spent only when the chain
height of the spending block has reached the declared unlock height, or the block
count past the creating block has reached the declared count (missing timelock check
of the transaction verifier). -/
def timelockPassed (lock : OutputTimeLock) (sourceHeight spendHeight : Nat) : Bool :=
  match lock with
  | .untilHeight h => decide (h ≤ spendHeight)
  | .forBlockCount c => decide (sourceHeight + c ≤ spendHeight)

/-- A chainstate reduced to its best-block height, enough to express that a rejected
block leaves the best block unchanged. -/
structure ChainState where
  bestHeight : Nat
  deriving DecidableEq

/-- Modelled from the spec: processing a block that spends a LockThenTransfer output
created at sourceHeight. The new block sits at height bestHeight + 1 and the timelock
is checked against that height; on failure the block is rejected with
TimeLockViolation and the chainstate is unchanged, on success the best block advances.
A same-block spend is the case sourceHeight = bestHeight + 1: the output is created by
the very block that spends it (missing connect path of the transaction verifier). -/
def processSpendOfLockedOutput (st : ChainState) (lock : OutputTimeLock)
    (sourceHeight : Nat) : ChainState × Option StateUpdateError :=
  let spendHeight := st.bestHeight + 1
  if timelockPassed lock sourceHeight spendHeight then
    ({ bestHeight := spendHeight }, none)
  else (st, some .timeLockViolation)

/-! ### PoS strict timestamp ordering (spec 4.7)

The PoS consensus implementation is absent from the source tree; only the test
src/chainstate/test-suite/src/tests/pos_processing_tests.rs is present. The
definitions below are modelled from the specification. -/

/-- The PoS consensus errors relevant to the claim. -/
inductive ConsensusPoSError where
  | posBlockTimeStrictOrderInvalid (blockId : Nat)
  | kernelCheckFailed
  deriving DecidableEq

/-- A chainstate reduced to the best block id and its timestamp. -/
structure PoSChainState where
  bestBlock : Nat
  bestTimestamp : Nat
  deriving DecidableEq

/-- Modelled from the spec: PoS block processing checks strict timestamp ordering
first - the block timestamp must be strictly greater than the parent's - and only then
the kernel/VRF/target checks, abstracted here as the oracle kernelOk (the test notes
that the timestamp is checked before the kernel inputs). A rejected block leaves the
best block unchanged. -/
def processPoSBlock (kernelOk : Nat → Bool) (st : PoSChainState)
    (blockId blockTimestamp : Nat) : PoSChainState × Option ConsensusPoSError :=
  if blockTimestamp ≤ st.bestTimestamp then
    (st, some (.posBlockTimeStrictOrderInvalid blockId))
  else if kernelOk blockId then
    ({ bestBlock := blockId, bestTimestamp := blockTimestamp }, none)
  else (st, some .kernelCheckFailed)

/-! ### Hierarchical verifier flush (spec 4.2, 4.3)

The transaction-verifier flush and the layered UTXO cache implementation are absent
from the source tree; only the flush tests
(src/chainstate/tx-verifier/src/transaction_verifier/tests/hierarchy_write.rs) and the
storage trait declarations are present. The per-key merge rules below are modelled
from the specification; flushing handles each key independently, so the merge of a
whole sub-cache is the pointwise per-key merge. -/

/-- The per-key state of one layer of the UTXO cache: absent, a live entry that is
fresh (not present in any ancestor), a live entry that is dirty (diverges from the
parent), or an entry marked spent. -/
inductive UtxoEntryState (U : Type) where
  | absent
  | fresh (u : U)
  | dirty (u : U)
  | spent
  deriving DecidableEq

/-- Conflict reported by the UTXO sub-cache merge (a double creation or an
inconsistent spent overlay). -/
inductive UtxoFlushError where
  | utxoFlushConflict
  deriving DecidableEq

/-- Modelled from the spec: the 4.3 merge table for flushing a child UTXO-cache entry
into its parent. Rows are the parent state, columns the child state: a child absence
keeps the parent; over an absent parent a live child is inserted with its flag; a
fresh child over a live parent is a double-create error; a dirty child updates a live
parent keeping the parent's flag; a spent child drops a fresh parent, marks a dirty
parent spent, and keeps a spent parent; a fresh child unspends a spent parent to
dirty, while a dirty child over a spent parent errors. One cell deviates from the
spec's table: for a spent child over an absent parent the spec says no-op, but the
in-tree test utxo_del_hierarchy (hierarchy_write.rs) spends a store UTXO in a grand-
child verifier whose intermediate verifier has no entry for it and checks that the
deletion still reaches the store, so the spent marker must be kept, not dropped. -/
def mergeUtxoEntry : UtxoEntryState U → UtxoEntryState U →
    Except UtxoFlushError (UtxoEntryState U)
  | p, .absent => .ok p
  | .absent, .fresh u => .ok (.fresh u)
  | .absent, .dirty u => .ok (.dirty u)
  | .absent, .spent => .ok .spent
  | .fresh _, .fresh _ => .error .utxoFlushConflict
  | .fresh _, .dirty u => .ok (.fresh u)
  | .fresh _, .spent => .ok .absent
  | .dirty _, .fresh _ => .error .utxoFlushConflict
  | .dirty _, .dirty u => .ok (.dirty u)
  | .dirty _, .spent => .ok .spent
  | .spent, .fresh u => .ok (.dirty u)
  | .spent, .dirty _ => .error .utxoFlushConflict
  | .spent, .spent => .ok .spent

/-- Conflict reported by the block-undo sub-cache merge. -/
inductive BlockUndoFlushError where
  | duplicateBlockUndo
  deriving DecidableEq

/-- Modelled from the spec: flushing the per-block undo sub-cache copies each child
entry into the parent; a child entry for a block id the parent already holds is the
DuplicateBlockUndo conflict. -/
def mergeBlockUndoEntry : Option B → Option B → Except BlockUndoFlushError (Option B)
  | p, none => .ok p
  | none, some u => .ok (some u)
  | some _, some _ => .error .duplicateBlockUndo

/-- Conflict reported by the token-issuance sub-cache merge. -/
inductive TokenFlushError where
  | invariantBrokenRegisterIssuanceWithDuplicateToken
  deriving DecidableEq

/-- Modelled from the spec: flushing the token-issuance sub-cache copies each child
operation into the parent; a child operation for a token id the parent already holds
an operation for is a duplicate-issuance conflict. -/
def mergeTokenEntry : Option T → Option T → Except TokenFlushError (Option T)
  | p, none => .ok p
  | none, some op => .ok (some op)
  | some _, some _ => .error .invariantBrokenRegisterIssuanceWithDuplicateToken

/-- Conflict reported by the transaction-index sub-cache merge. -/
inductive TxIndexFlushError where
  | outputAlreadyPresentInInputsCache
  deriving DecidableEq

/-- Modelled from the spec: flushing the transaction-index sub-cache copies each child
operation into the parent; a child operation for an outpoint the parent already holds
an operation for is the OutputAlreadyPresentInInputsCache conflict. -/
def mergeTxIndexEntry : Option X → Option X → Except TxIndexFlushError (Option X)
  | p, none => .ok p
  | none, some op => .ok (some op)
  | some _, some _ => .error .outputAlreadyPresentInInputsCache

/-- The per-key accounting sub-cache merge: a child delta is combined into the parent
delta with the spec 4.4 merge, a missing side is copied. -/
def mergeAccountingCell [DecidableEq V] (p c : Option (DataDelta V)) :
    Except DeltaError (Option (DataDelta V)) :=
  match p, c with
  | p, none => .ok p
  | none, some d => .ok (some d)
  | some d1, some d2 => mergeDeltaData d1 d2

/-- The order flush(C2 → flush(C1 → P)): the first child overlay is flushed into the
base, then the second child overlay into the result. -/
def flushParentFirst (m : S → S → Except E S) (base a b : S) : Except E S :=
  (m base a).bind fun pa => m pa b

/-- The order flush(flush(C2 → C1) → P): the second child overlay is flushed into the
first, then the combined overlay into the base. -/
def flushChildrenFirst (m : S → S → Except E S) (base a b : S) : Except E S :=
  (m a b).bind fun ab => m base ab

/-! ### Mempool consensus verification retry (src/mempool/src/pool/mod.rs) -/

/-- The chainstate interactions of one attempt of verify_transaction: the tip sampled
before connecting, the outcome of connect_transaction in a freshly derived child
verifier - on success the fee together with the consumed verifier delta - and the tip
sampled after connecting. Tips, fees and deltas are identified by numbers. -/
structure AttemptView (E : Type) where
  tipBefore : Nat
  connect : Except E (Nat × Nat)
  tipAfter : Nat

/-- The mempool transaction-validation errors relevant to the claim: TipMoved, or an
error propagated from the verifier (which aborts the retry loop immediately). -/
inductive TxValidationError (E : Type) where
  | tipMoved
  | verifierError (e : E)
  deriving DecidableEq

/-- The retry loop of verify_transaction from src/mempool/src/pool/mod.rs, indexed by
the remaining attempt budget and the current attempt number: sample the tip, connect
the transaction (an error is returned immediately), re-sample the tip; if the tip did
not move return the fee and the consumed delta (consume itself is modelled as
succeeding - its failure would be a storage fault), otherwise retry; an exhausted
budget means TipMoved. -/
def verifyTransactionFrom (attempts : Nat → AttemptView E) :
    Nat → Nat → Except (TxValidationError E) (Nat × Nat)
  | 0, _ => .error .tipMoved
  | remaining + 1, i =>
    match (attempts i).connect with
    | .error e => .error (.verifierError e)
    | .ok feeAndDelta =>
      if (attempts i).tipBefore = (attempts i).tipAfter then .ok feeAndDelta
      else verifyTransactionFrom attempts remaining (i + 1)

/-- verify_transaction from src/mempool/src/pool/mod.rs: the retry loop run for
MAX_TX_ADDITION_ATTEMPTS rounds (the constant lives in the mempool config and is kept
as the parameter maxAttempts). -/
def verifyTransaction (attempts : Nat → AttemptView E) (maxAttempts : Nat) :
    Except (TxValidationError E) (Nat × Nat) :=
  verifyTransactionFrom attempts maxAttempts 0

/-! ### Mempool conflict policy (src/mempool/src/pool/mod.rs) -/

/-- ENABLE_RBF from the mempool config: replace-by-fee is disabled by default. -/
def ENABLE_RBF : Bool := false

/-- A mempool transaction reduced to what admission inspects: its id, the outpoints it
spends (source transaction id and output index), its output count, its encoded size,
and the fee established by the verifier. -/
structure MempoolTx where
  txId : Nat
  inputs : List (Nat × Nat)
  outputCount : Nat
  size : Nat
  fee : Nat
  deriving DecidableEq

/-- The mempool policy errors relevant to the claim, in the order the checks run. -/
inductive MempoolPolicyError where
  | noInputs
  | noOutputs
  | exceedsMaxBlockSize
  | transactionAlreadyInMempool
  | transactionVerifierError
  | insufficientFeesToRelay
  | rollingFeeThresholdNotMet
  | conflictWithIrreplaceableTransaction
  deriving DecidableEq

/-- Modelled from the spec: MempoolStore::find_conflicting_tx - the id of an in-pool
transaction spending the given outpoint, if any (the store module is absent from the
source tree; only its memory tracker is present). -/
def findConflictingTx (pool : List MempoolTx) (outpoint : Nat × Nat) : Option Nat :=
  (pool.find? fun t => t.inputs.contains outpoint).map MempoolTx.txId

/-- conflicting_tx_ids from src/mempool/src/pool/mod.rs: the in-pool transactions that
spend an outpoint the candidate also spends. -/
def conflictingTxIds (pool : List MempoolTx) (tx : MempoolTx) : List Nat :=
  tx.inputs.filterMap (findConflictingTx pool)

/-- add_transaction from src/mempool/src/pool/mod.rs reduced to the admission checks
the claim is about, in source order: the preliminary policy checks (inputs and
outputs non-empty, size within MAX_BLOCK_SIZE_BYTES, not already present), consensus
verification (its outcome abstracted as consensusOk), the minimum relay fee, the
rolling minimum fee (minMempoolFee is the fee floor computed for this transaction),
and - with ENABLE_RBF false - rejection of any conflict; on success the entry is
inserted. The RBF rules guarded by ENABLE_RBF are dead code under the default
configuration and are not modelled. The expiry and eviction passes of finalize_tx
only ever remove entries and are covered by the drop step of MempoolReachable.
Errors leave the pool unchanged. -/
def addTransaction (maxBlockSize relayFeePerByte minMempoolFee : Nat) (consensusOk : Bool)
    (pool : List MempoolTx) (tx : MempoolTx) :
    List MempoolTx × Option MempoolPolicyError :=
  if tx.inputs = [] then (pool, some .noInputs)
  else if tx.outputCount = 0 then (pool, some .noOutputs)
  else if maxBlockSize < tx.size then (pool, some .exceedsMaxBlockSize)
  else if (pool.map MempoolTx.txId).contains tx.txId then
    (pool, some .transactionAlreadyInMempool)
  else if consensusOk = false then (pool, some .transactionVerifierError)
  else if tx.fee < tx.size * relayFeePerByte then (pool, some .insufficientFeesToRelay)
  else if tx.fee < minMempoolFee then (pool, some .rollingFeeThresholdNotMet)
  else if ENABLE_RBF = false ∧ conflictingTxIds pool tx ≠ [] then
    (pool, some .conflictWithIrreplaceableTransaction)
  else (tx :: pool, none)

/-- The mempool states reachable from the empty pool through add_transaction (with
arbitrary configuration parameters and verification outcomes) and through removals
(expiry, eviction, and new-tip handling only ever drop entries). -/
inductive MempoolReachable : List MempoolTx → Prop where
  | empty : MempoolReachable []
  | add (maxBlockSize relayFeePerByte minMempoolFee : Nat) (consensusOk : Bool)
      (pool : List MempoolTx) (tx : MempoolTx) :
      MempoolReachable pool →
      MempoolReachable
        (addTransaction maxBlockSize relayFeePerByte minMempoolFee consensusOk pool tx).1
  | drop (pool : List MempoolTx) (f : MempoolTx → Bool) :
      MempoolReachable pool → MempoolReachable (pool.filter f)

/-! ### Mempool eviction and the rolling minimum fee (src/mempool/src/pool/mod.rs) -/

/-- A mempool entry reduced to what eviction inspects: id, fee, encoded size,
descendant score, and the materialized transitive set of in-pool descendants. -/
structure TxMempoolEntry where
  entryId : Nat
  fee : Nat
  size : Nat
  descendantScore : Nat
  descendants : List Nat
  deriving DecidableEq

/-- Modelled from the spec: FeeRate::from_total_tx_fee scales a fee to a per-kilobyte
amount (the feerate module is absent from the source tree). -/
def feeRatePerKb (fee size : Nat) : Nat := fee * 1000 / size

/-- The entry trim evicts next: the first element of the txs_by_descendant_score index
(a map from score to id set), i.e. lowest descendant score with ties broken by lowest
id. -/
def trimPick (store : List TxMempoolEntry) : Option TxMempoolEntry :=
  store.argmin fun e => toLex (e.descendantScore, e.entryId)

/-- Modelled from the spec: MempoolStore::drop_tx_and_descendants removes the entry
together with all of its (materialized, transitive) descendants (the store module is
absent from the source tree). -/
def dropTxAndDescendants (store : List TxMempoolEntry) (e : TxMempoolEntry) :
    List TxMempoolEntry :=
  store.filter fun x => decide (x.entryId ≠ e.entryId ∧ x.entryId ∉ e.descendants)

/-- The loop of trim from src/mempool/src/pool/mod.rs: while the pool is non-empty and
its memory usage exceeds max_size, evict the entry with the lowest descendant score
together with its descendants, recording the evicted entry's fee rate. The memory
usage estimator is the parameter memUsage; the fuel argument bounds the iteration
count, and the store length suffices because every round removes at least the picked
entry. -/
def trimGo (memUsage : List TxMempoolEntry → Nat) (maxSize : Nat) :
    Nat → List TxMempoolEntry → List Nat × List TxMempoolEntry
  | 0, store => ([], store)
  | fuel + 1, store =>
    if store = [] ∨ memUsage store ≤ maxSize then ([], store)
    else
      match trimPick store with
      | none => ([], store)
      | some removed =>
        let rest := trimGo memUsage maxSize fuel (dropTxAndDescendants store removed)
        (feeRatePerKb removed.fee removed.size :: rest.1, rest.2)

/-- trim from src/mempool/src/pool/mod.rs: the eviction loop started with enough fuel
to run until its guard stops it. -/
def trim (memUsage : List TxMempoolEntry → Nat) (maxSize : Nat)
    (store : List TxMempoolEntry) : List Nat × List TxMempoolEntry :=
  trimGo memUsage maxSize store.length store

/-- The mempool state limit_mempool_size manipulates: the entry store and the rolling
minimum fee rate. -/
structure MempoolSizeState where
  store : List TxMempoolEntry
  rollingMinimumFeeRate : Nat
  deriving DecidableEq

/-- limit_mempool_size from src/mempool/src/pool/mod.rs: run trim; if anything was
evicted, compute the maximum evicted fee rate plus INCREMENTAL_RELAY_FEE_RATE (kept as
the parameter incrementalRelayFeeRate) and raise the rolling minimum fee rate to it
only when it exceeds the current rate. -/
def limitMempoolSize (memUsage : List TxMempoolEntry → Nat)
    (maxSize incrementalRelayFeeRate : Nat) (st : MempoolSizeState) : MempoolSizeState :=
  let removed := trim memUsage maxSize st.store
  if removed.1 = [] then { st with store := removed.2 }
  else
    let newMinimumFeeRate := removed.1.foldl max 0 + incrementalRelayFeeRate
    if st.rollingMinimumFeeRate < newMinimumFeeRate then
      { store := removed.2, rollingMinimumFeeRate := newMinimumFeeRate }
    else { store := removed.2, rollingMinimumFeeRate := st.rollingMinimumFeeRate }

end Mintlayer

namespace Mintlayer

/-- Claim C2: for every origin cell d in {None, Some v} and every delta whose
before-component equals d, applying the delta to d and then applying the inverse delta
(after, before) yields d again. -/
theorem delta_undo_roundtrip [DecidableEq V] (d : Option V) (dl : DataDelta V)
    (h : dl.before = d) :
    applyTwoDeltas d dl (invertDelta dl) = .ok d := by
  simp [applyTwoDeltas, combineDataWithDelta, invertDelta, h, Except.bind]

/-- Witness for C2 at the concrete origin Some a and delta (Some a, Some b). -/
theorem delta_undo_roundtrip_witness :
    (DataDelta.mk (some 'a') (some 'b')).before = some 'a' ∧
      applyTwoDeltas (some 'a') (DataDelta.mk (some 'a') (some 'b'))
        (invertDelta (DataDelta.mk (some 'a') (some 'b'))) = .ok (some 'a') :=
  ⟨rfl, delta_undo_roundtrip (some 'a') (DataDelta.mk (some 'a') (some 'b')) rfl⟩

/-- Counterexample to claim C3 as stated: with the valid chain d1 = (Some a, Some b),
d2 = (Some b, Some a), whose merge erases the key, applying the chain to the origin
None fails with DeltaDataMismatch while applying the merged (erased) delta returns the
origin unchanged, so the unconditional application law fails. -/
theorem delta_merge_apply_counterexample :
    applyTwoDeltas (none : Option Char) (DataDelta.mk (some 'a') (some 'b'))
        (DataDelta.mk (some 'b') (some 'a')) = .error .deltaDataMismatch ∧
      applyMergedDelta (none : Option Char) (DataDelta.mk (some 'a') (some 'b'))
        (DataDelta.mk (some 'b') (some 'a')) = .ok none ∧
      applyTwoDeltas (none : Option Char) (DataDelta.mk (some 'a') (some 'b'))
          (DataDelta.mk (some 'b') (some 'a')) ≠
        applyMergedDelta (none : Option Char) (DataDelta.mk (some 'a') (some 'b'))
          (DataDelta.mk (some 'b') (some 'a')) := by
  refine ⟨rfl, rfl, ?_⟩
  intro h
  simp [applyTwoDeltas, applyMergedDelta, combineDataWithDelta, mergeDeltaData,
    Except.bind] at h

/-- Claim C3 (amended): merging (a, b) with (c, d) succeeds exactly when b = c and then
yields (a, d), erasing the key when additionally a = d; and for every origin to which
the first delta applies (origin = d1.before), applying the chain equals applying the
single merged delta. -/
theorem delta_merge_characterisation [DecidableEq V] (d1 d2 : DataDelta V) :
    ((mergeDeltaData d1 d2).isOk ↔ d1.after = d2.before) ∧
      (d1.after = d2.before →
        mergeDeltaData d1 d2 =
          .ok (if d1.before = d2.after then none else some ⟨d1.before, d2.after⟩)) ∧
      (∀ d : Option V, d1.after = d2.before → d = d1.before →
        applyTwoDeltas d d1 d2 = applyMergedDelta d d1 d2) := by
  refine ⟨?_, ?_, ?_⟩
  · by_cases h : d1.after = d2.before <;>
      simp [mergeDeltaData, h, Except.isOk, Except.toBool]
  · intro h; simp [mergeDeltaData, h]
  · intro d h hd
    subst hd
    simp only [applyTwoDeltas, applyMergedDelta, mergeDeltaData, combineDataWithDelta, h,
      if_pos, if_true]
    by_cases he : d1.before = d2.after
    · simp [he, Except.bind]
    · simp [he, Except.bind]

/-- Witness for C3 (amended) at d1 = (Some a, Some b), d2 = (Some b, Some c),
origin Some a. -/
theorem delta_merge_characterisation_witness :
    applyTwoDeltas (some 'a') (DataDelta.mk (some 'a') (some 'b'))
        (DataDelta.mk (some 'b') (some 'c')) =
      applyMergedDelta (some 'a') (DataDelta.mk (some 'a') (some 'b'))
        (DataDelta.mk (some 'b') (some 'c')) :=
  (delta_merge_characterisation (DataDelta.mk (some 'a') (some 'b'))
    (DataDelta.mk (some 'b') (some 'c'))).2.2 (some 'a') rfl rfl

/-- Counterexample to claim C1 as stated: in the UTXO sub-cache, over a base holding a
fresh entry for an outpoint, take a first child overlay that spends it and a second
child overlay that (incoherently - spend_utxo refuses to spend a key already spent in
an ancestor) spends it again. Merging the two children first nets the two markers to
one and cancels the fresh base to absence, while flushing the first child into the
base first cancels to absence and then records the second marker as spent: both orders
are defined yet the resulting states differ. -/
theorem verifier_flush_counterexample :
    flushChildrenFirst mergeUtxoEntry (.fresh true : UtxoEntryState Bool) .spent .spent =
        .ok .absent ∧
      flushParentFirst mergeUtxoEntry (.fresh true : UtxoEntryState Bool) .spent .spent =
        .ok .spent ∧
      flushChildrenFirst mergeUtxoEntry (.fresh true : UtxoEntryState Bool) .spent .spent ≠
        flushParentFirst mergeUtxoEntry (.fresh true : UtxoEntryState Bool) .spent .spent := by
  refine ⟨rfl, rfl, ?_⟩
  intro h
  simp [flushChildrenFirst, flushParentFirst, mergeUtxoEntry, Except.bind] at h

/-- Claim C1 (amended): per sub-cache, flushing child overlay B into child overlay A
and then the combined overlay into the base produces the same state as flushing A into
the base and then B into the result, whenever both orders are defined -
unconditionally for the block-undo, token and transaction-index sub-caches, for the
UTXO sub-cache at keys not marked spent by both overlays (spend_utxo never spends a
key already spent in an ancestor layer), and for the accounting sub-cache at keys
where no layer stores an identity (no-op) delta. -/
theorem verifier_flush_commutation {U V B T X : Type} [DecidableEq V] :
    (∀ base a b : UtxoEntryState U,
        (a = .spent → b ≠ .spent) →
        (flushChildrenFirst mergeUtxoEntry base a b).isOk →
        (flushParentFirst mergeUtxoEntry base a b).isOk →
        flushChildrenFirst mergeUtxoEntry base a b =
          flushParentFirst mergeUtxoEntry base a b) ∧
      (∀ base a b : Option B,
        (flushChildrenFirst mergeBlockUndoEntry base a b).isOk →
        (flushParentFirst mergeBlockUndoEntry base a b).isOk →
        flushChildrenFirst mergeBlockUndoEntry base a b =
          flushParentFirst mergeBlockUndoEntry base a b) ∧
      (∀ base a b : Option T,
        (flushChildrenFirst mergeTokenEntry base a b).isOk →
        (flushParentFirst mergeTokenEntry base a b).isOk →
        flushChildrenFirst mergeTokenEntry base a b =
          flushParentFirst mergeTokenEntry base a b) ∧
      (∀ base a b : Option X,
        (flushChildrenFirst mergeTxIndexEntry base a b).isOk →
        (flushParentFirst mergeTxIndexEntry base a b).isOk →
        flushChildrenFirst mergeTxIndexEntry base a b =
          flushParentFirst mergeTxIndexEntry base a b) ∧
      (∀ base a b : Option (DataDelta V),
        (∀ d, base = some d → d.before ≠ d.after) →
        (∀ d, a = some d → d.before ≠ d.after) →
        (∀ d, b = some d → d.before ≠ d.after) →
        (flushChildrenFirst mergeAccountingCell base a b).isOk →
        (flushParentFirst mergeAccountingCell base a b).isOk →
        flushChildrenFirst mergeAccountingCell base a b =
          flushParentFirst mergeAccountingCell base a b) := by
  refine ⟨?_, ?_, ?_, ?_, ?_⟩
  · intro base a b hcoh h1 h2
    cases base <;> cases a <;> cases b <;>
      simp_all [flushChildrenFirst, flushParentFirst, mergeUtxoEntry, Except.bind,
        Except.isOk, Except.toBool]
  · intro base a b h1 h2
    cases base <;> cases a <;> cases b <;>
      simp_all [flushChildrenFirst, flushParentFirst, mergeBlockUndoEntry, Except.bind,
        Except.isOk, Except.toBool]
  · intro base a b h1 h2
    cases base <;> cases a <;> cases b <;>
      simp_all [flushChildrenFirst, flushParentFirst, mergeTokenEntry, Except.bind,
        Except.isOk, Except.toBool]
  · intro base a b h1 h2
    cases base <;> cases a <;> cases b <;>
      simp_all [flushChildrenFirst, flushParentFirst, mergeTxIndexEntry, Except.bind,
        Except.isOk, Except.toBool]
  · intro base a b hbase ha hb h1 h2
    rcases base with _ | ⟨p1, p2⟩ <;> rcases a with _ | ⟨a1, a2⟩ <;>
      rcases b with _ | ⟨b1, b2⟩ <;>
      simp_all only [flushChildrenFirst, flushParentFirst, mergeAccountingCell,
        mergeDeltaData, Except.bind, Except.isOk, Except.toBool,
        forall_eq_apply_imp_iff, Option.some.injEq, forall_eq, ne_eq] <;>
      split_ifs at h1 h2 ⊢ <;> simp_all [DataDelta.mk.injEq]

/-- Witness for C1 (amended): each sub-cache conjunct applied at a concrete defined
triple. -/
theorem verifier_flush_commutation_witness :
    (flushChildrenFirst mergeUtxoEntry (.dirty true : UtxoEntryState Bool) (.dirty false)
        .spent = flushParentFirst mergeUtxoEntry (.dirty true) (.dirty false) .spent) ∧
      (flushChildrenFirst mergeBlockUndoEntry (none : Option Nat) (some 0) none =
        flushParentFirst mergeBlockUndoEntry none (some 0) none) ∧
      (flushChildrenFirst mergeTokenEntry (none : Option Nat) (some 1) none =
        flushParentFirst mergeTokenEntry none (some 1) none) ∧
      (flushChildrenFirst mergeTxIndexEntry (none : Option Nat) (some 2) none =
        flushParentFirst mergeTxIndexEntry none (some 2) none) ∧
      (flushChildrenFirst mergeAccountingCell (none : Option (DataDelta Nat))
          (some ⟨none, some 0⟩) (some ⟨some 0, none⟩) =
        flushParentFirst mergeAccountingCell none (some ⟨none, some 0⟩)
          (some ⟨some 0, none⟩)) := by
  refine ⟨?_, ?_, ?_, ?_, ?_⟩
  · exact (verifier_flush_commutation (V := Nat) (B := Nat) (T := Nat) (X := Nat)).1
      (.dirty true) (.dirty false) .spent (fun h => nomatch h) (by decide) (by decide)

  · exact (verifier_flush_commutation (U := Nat) (V := Nat) (T := Nat) (X := Nat)).2.1
      none (some 0) none (by decide) (by decide)
  · exact (verifier_flush_commutation (U := Nat) (V := Nat) (B := Nat) (X := Nat)).2.2.1
      none (some 1) none (by decide) (by decide)
  · exact (verifier_flush_commutation (U := Nat) (V := Nat) (B := Nat) (T := Nat)).2.2.2.1
      none (some 2) none (by decide) (by decide)
  · exact (verifier_flush_commutation (U := Nat) (B := Nat) (T := Nat) (X := Nat)).2.2.2.2
      none (some ⟨none, some 0⟩) (some ⟨some 0, none⟩)
      (fun d hd => nomatch hd)
      (fun d hd => by cases hd; simp)
      (fun d hd => by cases hd; simp)
      (by decide) (by decide)

/-- Helper for C7: the retry loop returns TipMoved when every attempt in its window
connects successfully but observes a moved tip. -/
theorem verifyTransactionFrom_tipMoved (attempts : Nat → AttemptView E) :
    ∀ remaining start,
      (∀ i, start ≤ i → i < start + remaining →
        ((attempts i).connect).isOk ∧ (attempts i).tipBefore ≠ (attempts i).tipAfter) →
      verifyTransactionFrom attempts remaining start = .error .tipMoved := by
  intro remaining
  induction remaining with
  | zero => intro start _; rfl
  | succ n ih =>
    intro start h
    obtain ⟨hok, hne⟩ := h start (le_refl start) (by omega)
    cases hc : (attempts start).connect with
    | error e => rw [hc] at hok; simp [Except.isOk, Except.toBool] at hok
    | ok v =>
      simp only [verifyTransactionFrom, hc, if_neg hne]
      exact ih (start + 1) fun i h1 h2 => h i (by omega) (by omega)

/-- Helper for C7: the retry loop returns the fee and delta of the first attempt that
connects successfully and observes a stable tip. -/
theorem verifyTransactionFrom_stable (attempts : Nat → AttemptView E) :
    ∀ remaining start j fee delta, start ≤ j → j < start + remaining →
      (∀ i, start ≤ i → i < j →
        ((attempts i).connect).isOk ∧ (attempts i).tipBefore ≠ (attempts i).tipAfter) →
      (attempts j).connect = .ok (fee, delta) →
      (attempts j).tipBefore = (attempts j).tipAfter →
      verifyTransactionFrom attempts remaining start = .ok (fee, delta) := by
  intro remaining
  induction remaining with
  | zero => intro start j _ _ h1 h2; omega
  | succ n ih =>
    intro start j fee delta hsj hjr hpre hconn hstable
    by_cases heq : start = j
    · subst heq
      simp only [verifyTransactionFrom, hconn, if_pos hstable]
    · obtain ⟨hok, hne⟩ := hpre start (le_refl _) (by omega)
      cases hc : (attempts start).connect with
      | error e => rw [hc] at hok; simp [Except.isOk, Except.toBool] at hok
      | ok v =>
        simp only [verifyTransactionFrom, hc, if_neg hne]
        exact ih (start + 1) j fee delta (by omega) (by omega)
          (fun i hi1 hi2 => hpre i (by omega) hi2) hconn hstable

/-- Claim C7: during mempool verification, an attempt whose before- and after-tips
differ is retried; if every one of the maxAttempts rounds connects successfully but
sees a moved tip the admission fails with TipMoved, while the first attempt with a
stable tip returns the fee and the consumed verifier delta. -/
theorem verify_transaction_retry (E : Type) (attempts : Nat → AttemptView E)
    (maxAttempts : Nat) :
    ((∀ i, i < maxAttempts →
        ((attempts i).connect).isOk ∧ (attempts i).tipBefore ≠ (attempts i).tipAfter) →
      verifyTransaction attempts maxAttempts = .error .tipMoved) ∧
      (∀ j fee delta, j < maxAttempts →
        (∀ i, i < j →
          ((attempts i).connect).isOk ∧ (attempts i).tipBefore ≠ (attempts i).tipAfter) →
        (attempts j).connect = .ok (fee, delta) →
        (attempts j).tipBefore = (attempts j).tipAfter →
        verifyTransaction attempts maxAttempts = .ok (fee, delta)) := by
  constructor
  · intro h
    exact verifyTransactionFrom_tipMoved attempts maxAttempts 0
      fun i h1 h2 => h i (by omega)
  · intro j fee delta hj hpre hconn hstable
    exact verifyTransactionFrom_stable attempts maxAttempts 0 j fee delta (by omega)
      (by omega) (fun i _ h2 => hpre i h2) hconn hstable

/-- Witness for C7: with two attempts, the first sees the tip move and the second sees
a stable tip, so verification returns the second attempt's fee and delta. -/
theorem verify_transaction_retry_witness :
    verifyTransaction
        (fun i => if i = 0 then ⟨0, Except.ok (1, 1), 1⟩
          else ⟨5, Except.ok (7, 9), 5⟩ : Nat → AttemptView Unit)
        2 = Except.ok ((7 : Nat), (9 : Nat)) :=
  (verify_transaction_retry Unit
      (fun i => if i = 0 then ⟨0, Except.ok (1, 1), 1⟩ else ⟨5, Except.ok (7, 9), 5⟩)
      2).2 1 7 9 (by decide)
    (fun i hi => by interval_cases i; exact ⟨by decide, by decide⟩) rfl rfl

/-- Helper for C6: an empty conflict list means no in-pool transaction spends any
outpoint the candidate spends. -/
theorem conflictingTxIds_eq_nil {pool : List MempoolTx} {tx : MempoolTx}
    (h : conflictingTxIds pool tx = []) :
    ∀ o ∈ tx.inputs, ∀ t ∈ pool, o ∉ t.inputs := by
  intro o ho t ht hmem
  rw [conflictingTxIds, List.filterMap_eq_nil_iff] at h
  have hfind := h o ho
  rw [findConflictingTx, Option.map_eq_none'] at hfind
  rw [List.find?_eq_none] at hfind
  have := hfind t ht
  simp only [List.contains, List.elem_eq_mem, decide_eq_true_eq] at this
  exact this hmem

/-- Helper for C6: add_transaction either leaves the pool unchanged or inserts the
candidate, and insertion only happens when the candidate conflicts with nothing. -/
theorem addTransaction_fst (maxBlockSize relayFeePerByte minMempoolFee : Nat)
    (consensusOk : Bool) (pool : List MempoolTx) (tx : MempoolTx) :
    (addTransaction maxBlockSize relayFeePerByte minMempoolFee consensusOk pool tx).1 =
        pool ∨
      ((addTransaction maxBlockSize relayFeePerByte minMempoolFee consensusOk
          pool tx).1 = tx :: pool ∧ conflictingTxIds pool tx = []) := by
  unfold addTransaction
  split_ifs with h1 h2 h3 h4 h5 h6 h7 h8
  all_goals simp_all [ENABLE_RBF]

/-- Claim C6: with RBF disabled (the default), a candidate that passes the earlier
checks but spends an outpoint an in-pool transaction also spends is rejected with
ConflictWithIrreplaceableTransaction leaving the pool unchanged; and in every pool
state reachable through add_transaction (and removals) no two in-pool transactions
spend the same outpoint. -/
theorem mempool_no_double_spend :
    (∀ maxBlockSize relayFeePerByte minMempoolFee (pool : List MempoolTx)
        (tx : MempoolTx),
      tx.inputs ≠ [] → tx.outputCount ≠ 0 → tx.size ≤ maxBlockSize →
      (pool.map MempoolTx.txId).contains tx.txId = false →
      tx.size * relayFeePerByte ≤ tx.fee → minMempoolFee ≤ tx.fee →
      conflictingTxIds pool tx ≠ [] →
      addTransaction maxBlockSize relayFeePerByte minMempoolFee true pool tx =
        (pool, some .conflictWithIrreplaceableTransaction)) ∧
      (∀ pool, MempoolReachable pool →
        pool.Pairwise fun t1 t2 => ∀ o ∈ t1.inputs, o ∉ t2.inputs) := by
  constructor
  · intro mbs rfb mmf pool tx h1 h2 h3 h4 h5 h6 h7
    have h3' : ¬mbs < tx.size := by omega
    have h5' : ¬tx.fee < tx.size * rfb := by omega
    have h6' : ¬tx.fee < mmf := by omega
    simp [addTransaction, h1, h2, h3', h4, h5', h6', h7, ENABLE_RBF]
    intro x hx hEq
    have hcont : (List.map MempoolTx.txId pool).contains tx.txId = true := by
      simp only [List.contains, List.elem_eq_mem, decide_eq_true_eq, List.mem_map]
      exact ⟨x, hx, hEq⟩
    rw [h4] at hcont
    exact Bool.false_ne_true hcont
  · intro pool hreach
    induction hreach with
    | empty => exact List.Pairwise.nil
    | add mbs rfb mmf cok pool tx hr ih =>
      rcases addTransaction_fst mbs rfb mmf cok pool tx with h | ⟨h, hc⟩
      · rw [h]; exact ih
      · rw [h]
        exact List.Pairwise.cons
          (fun t ht o ho => conflictingTxIds_eq_nil hc o ho t ht) ih
    | drop pool f hr ih => exact List.Pairwise.filter f ih

/-- Witness for C6: a candidate spending the outpoint (5, 0) already spent by the
in-pool transaction 1 is rejected and the pool is unchanged. -/
theorem mempool_no_double_spend_witness :
    addTransaction 100 0 0 true [⟨1, [(5, 0)], 1, 10, 50⟩] ⟨2, [(5, 0)], 1, 10, 50⟩ =
      ([⟨1, [(5, 0)], 1, 10, 50⟩], some .conflictWithIrreplaceableTransaction) :=
  mempool_no_double_spend.1 100 0 0 [⟨1, [(5, 0)], 1, 10, 50⟩] ⟨2, [(5, 0)], 1, 10, 50⟩
    (by decide) (by decide) (by decide) (by decide) (by decide) (by decide) (by decide)

/-- Helper for C5: dropping a present entry together with its descendants strictly
shrinks the store. -/
theorem length_dropTxAndDescendants_lt {store : List TxMempoolEntry}
    {e : TxMempoolEntry} (he : e ∈ store) :
    (dropTxAndDescendants store e).length < store.length := by
  rw [dropTxAndDescendants, List.length_filter_lt_length_iff_exists]
  exact ⟨e, he, by simp⟩

/-- Helper for C5: given enough fuel, the trim loop runs until the store is empty or
its memory usage is within bounds, and it only ever removes entries. -/
theorem trimGo_spec (memUsage : List TxMempoolEntry → Nat) (maxSize : Nat) :
    ∀ fuel store, store.length ≤ fuel →
      ((trimGo memUsage maxSize fuel store).2 = [] ∨
        memUsage (trimGo memUsage maxSize fuel store).2 ≤ maxSize) ∧
      (trimGo memUsage maxSize fuel store).2.Sublist store := by
  intro fuel
  induction fuel with
  | zero =>
    intro store hlen
    have hnil : store = [] := List.eq_nil_of_length_eq_zero (by omega)
    subst hnil
    exact ⟨Or.inl rfl, List.Sublist.refl _⟩
  | succ n ih =>
    intro store hlen
    by_cases hstop : store = [] ∨ memUsage store ≤ maxSize
    · simp only [trimGo, if_pos hstop]
      exact ⟨hstop, List.Sublist.refl _⟩
    · have hne : store ≠ [] := fun h => hstop (Or.inl h)
      cases hp : trimPick store with
      | none => exact absurd (List.argmin_eq_none.mp hp) hne
      | some removed =>
        have hmem : removed ∈ store := List.argmin_mem hp
        have hlt := length_dropTxAndDescendants_lt hmem
        have hrec := ih (dropTxAndDescendants store removed) (by omega)
        simp only [trimGo, if_neg hstop]
        rw [hp]
        exact ⟨hrec.1, hrec.2.trans (List.filter_sublist _)⟩

/-- Counterexample to claim C5 as stated: a pool over its size limit whose rolling
minimum fee rate is already far above the evicted fee rates. The eviction pass
removes the only entry (fee rate 1000 per kilobyte), but the rolling minimum fee
rate stays 1000000 instead of becoming 1000 + 100. -/
theorem limit_mempool_size_counterexample :
    (trim (fun s => (s.map TxMempoolEntry.size).sum) 0 [⟨0, 1, 1, 0, []⟩]).1 = [1000] ∧
      (limitMempoolSize (fun s => (s.map TxMempoolEntry.size).sum) 0 100
          ⟨[⟨0, 1, 1, 0, []⟩], 1000000⟩).rollingMinimumFeeRate = 1000000 ∧
      (1000000 : Nat) ≠ 1000 + 100 :=
  ⟨by decide, by decide, by decide⟩

/-- Claim C5 (amended): after limit_mempool_size the store is empty or its memory
usage is within max_size, only entries were removed (the evicted roots together with
their descendants), and if anything was evicted the rolling minimum fee rate equals
the maximum of its previous value and the maximum evicted fee rate plus
INCREMENTAL_RELAY_FEE_RATE. -/
theorem limit_mempool_size_spec (memUsage : List TxMempoolEntry → Nat)
    (maxSize incr : Nat) (st : MempoolSizeState) :
    ((limitMempoolSize memUsage maxSize incr st).store = [] ∨
        memUsage (limitMempoolSize memUsage maxSize incr st).store ≤ maxSize) ∧
      (limitMempoolSize memUsage maxSize incr st).store.Sublist st.store ∧
      ((trim memUsage maxSize st.store).1 ≠ [] →
        (limitMempoolSize memUsage maxSize incr st).rollingMinimumFeeRate =
          max st.rollingMinimumFeeRate
            ((trim memUsage maxSize st.store).1.foldl max 0 + incr)) := by
  have hspec := trimGo_spec memUsage maxSize st.store.length st.store (le_refl _)
  have hstore : (limitMempoolSize memUsage maxSize incr st).store =
      (trim memUsage maxSize st.store).2 := by
    simp only [limitMempoolSize]
    split_ifs <;> rfl
  refine ⟨?_, ?_, ?_⟩
  · rw [hstore]; exact hspec.1
  · rw [hstore]; exact hspec.2
  · intro hne
    simp only [limitMempoolSize]
    split_ifs with h1 h2
    · exact absurd h1 hne
    · exact (Nat.max_eq_right (Nat.le_of_lt h2)).symm
    · exact (Nat.max_eq_left (Nat.le_of_not_lt h2)).symm

/-- Witness for C5 (amended): an over-limit single-entry pool is trimmed to empty and
the rolling minimum fee rate is raised to the evicted rate plus the incremental relay
fee rate. -/
theorem limit_mempool_size_spec_witness :
    (trim (fun s => (s.map TxMempoolEntry.size).sum) 0 [⟨0, 1, 1, 0, []⟩]).1 ≠ [] ∧
      (limitMempoolSize (fun s => (s.map TxMempoolEntry.size).sum) 0 2
          ⟨[⟨0, 1, 1, 0, []⟩], 5⟩).rollingMinimumFeeRate =
        max 5
          ((trim (fun s => (s.map TxMempoolEntry.size).sum) 0
              [⟨0, 1, 1, 0, []⟩]).1.foldl max 0 + 2) :=
  ⟨by decide,
    (limit_mempool_size_spec (fun s => (s.map TxMempoolEntry.size).sum) 0 2
      ⟨[⟨0, 1, 1, 0, []⟩], 5⟩).2.2 (by decide)⟩

/-- Claim C10: for the empty transaction list both calculate_tx_merkle_root and
calculate_witness_merkle_root return Ok(None) - not an error and not a hash - so a
block with no transactions carries no merkle-root commitment. -/
theorem empty_block_merkle_roots (Tx H MerkleError : Type) (getId : Tx → H)
    (mkTree : List H → Except MerkleError H) :
    calculateTxMerkleRoot getId mkTree [] = .ok none ∧
      calculateWitnessMerkleRoot getId mkTree [] = .ok none :=
  ⟨rfl, rfl⟩

/-- Claim C9: the unlock check succeeds exactly when the supplied key decrypts every
value stored in the DBRootKeys map, and fails with WalletInvalidPassword exactly when
some envelope fails to decrypt. -/
theorem check_can_decrypt_all_root_keys_spec (K E V I : Type) (decrypt : K → E → Option V)
    (key : K) (rootKeys : List (I × E)) :
    (checkCanDecryptAllRootKeys decrypt key rootKeys = .ok () ↔
        ∀ e ∈ rootKeys, (decrypt key e.2).isSome) ∧
      (checkCanDecryptAllRootKeys decrypt key rootKeys = .error .walletInvalidPassword ↔
        ∃ e ∈ rootKeys, decrypt key e.2 = none) := by
  induction rootKeys with
  | nil => simp [checkCanDecryptAllRootKeys]
  | cons head tail ih =>
    obtain ⟨_, v⟩ := head
    constructor
    · cases hd : decrypt key v with
      | some w => simpa [checkCanDecryptAllRootKeys, hd] using ih.1
      | none => simp [checkCanDecryptAllRootKeys, hd]
    · cases hd : decrypt key v with
      | some w => simpa [checkCanDecryptAllRootKeys, hd, Option.isSome] using ih.2
      | none => simp [checkCanDecryptAllRootKeys, hd]

/-- Witness for C10 at concrete id and tree-builder functions. -/
theorem empty_block_merkle_roots_witness :
    calculateTxMerkleRoot (fun t : Nat => t) (fun _ => Except.error (0 : Nat)) [] =
        .ok none ∧
      calculateWitnessMerkleRoot (fun t : Nat => t) (fun _ => Except.error (0 : Nat)) [] =
        .ok none :=
  empty_block_merkle_roots Nat Nat Nat (fun t => t) (fun _ => Except.error 0)

/-- Witness for C9: a key that decrypts both stored envelopes unlocks the wallet. -/
theorem check_can_decrypt_all_root_keys_spec_witness :
    checkCanDecryptAllRootKeys (fun (k e : Nat) => if e = k then some e else none) 0
        [(10, 0), (11, 0)] = .ok () :=
  ((check_can_decrypt_all_root_keys_spec Nat Nat Nat Nat
      (fun (k e : Nat) => if e = k then some e else none) 0 [(10, 0), (11, 0)]).1).mpr
    (by decide)

/-- Claim C4: for a LockThenTransfer output created at block height 1 with timelock
UntilHeight 10, a block spending it at any height 2..9 is rejected with
TimeLockViolation leaving the best block unchanged, a spend inside the very block that
creates the output (source height = spend height = 1) is likewise rejected leaving the
genesis tip, and the spend at height 10 is accepted and advances the best chain. -/
theorem output_lock_until_height_spec :
    (∀ h : Nat, 2 ≤ h → h ≤ 9 →
        processSpendOfLockedOutput ⟨h - 1⟩ (.untilHeight 10) 1 =
          (⟨h - 1⟩, some .timeLockViolation)) ∧
      processSpendOfLockedOutput ⟨0⟩ (.untilHeight 10) 1 = (⟨0⟩, some .timeLockViolation) ∧
      processSpendOfLockedOutput ⟨9⟩ (.untilHeight 10) 1 = (⟨10⟩, none) := by
  refine ⟨?_, rfl, rfl⟩
  intro h h2 h9
  interval_cases h <;> rfl

/-- Witness for C4 at the concrete spend height 5 (tip height 4). -/
theorem output_lock_until_height_spec_witness :
    (2 ≤ 5 ∧ 5 ≤ 9) ∧
      processSpendOfLockedOutput ⟨4⟩ (.untilHeight 10) 1 = (⟨4⟩, some .timeLockViolation) :=
  ⟨⟨by decide, by decide⟩, output_lock_until_height_spec.1 5 (by decide) (by decide)⟩

/-- Claim C8: every PoS block whose timestamp is not strictly greater than its
parent's is rejected with PoSBlockTimeStrictOrderInvalid and the best block remains
unchanged, irrespective of the kernel checks. -/
theorem pos_strict_time_ordering (kernelOk : Nat → Bool) (st : PoSChainState)
    (blockId ts : Nat) (h : ts ≤ st.bestTimestamp) :
    processPoSBlock kernelOk st blockId ts =
      (st, some (.posBlockTimeStrictOrderInvalid blockId)) := by
  simp [processPoSBlock, h]

/-- Witness for C8: a block that reuses its parent's timestamp is rejected even though
the kernel oracle accepts everything. -/
theorem pos_strict_time_ordering_witness :
    (7 : Nat) ≤ 7 ∧
      processPoSBlock (fun _ => true) ⟨3, 7⟩ 4 7 =
        (⟨3, 7⟩, some (.posBlockTimeStrictOrderInvalid 4)) :=
  ⟨le_refl 7, pos_strict_time_ordering (fun _ => true) ⟨3, 7⟩ 4 7 (le_refl 7)⟩

end Mintlayer
